import Mathlib

/-!
Verification of `generate_rss.py`: a script that walks a directory tree of
Markdown posts and builds an RSS 2.0 feed.

Shallow embedding conventions:
* File content is modelled as a `List String` of lines without their
  trailing newline.  Every use the script makes of a line either checks a
  two or three character opening marker or strips surrounding whitespace,
  so the trailing `"\n"` that Python's `readline` keeps is immaterial.
* The Python standard-library collaborators that the script calls —
  `datetime.datetime.fromisoformat`, `strftime`, the current local time,
  and the external `markdown` subprocess — are threaded in as explicit
  function parameters (`Ctx.isoParse`, `Ctx.strfDate`, `Ctx.nowStr`, and a
  `render` argument), mirroring the spec's treatment of them as external
  collaborators.
* Filesystem paths are lists of components (`pathlib.PurePath` compares
  paths by their component tuple, which the ordering model follows), and a
  directory tree is an inductive value; an `open` that would raise
  `OSError` is modelled by a file whose content is `none`.
* Python exceptions that the script raises and catches
  (`InvalidMarkdownFile`) become `Except String`; an uncaught `OSError`
  from `open` becomes the error component of `Except FsPath` threaded
  through the whole walk.
-/

/-- Python string comparison and `str.strip` work on code points; `Char.toNat`
is the code point of a character. -/
def charLtB (a b : Char) : Bool := a.toNat < b.toNat

/-- Lexicographic strict order on lists induced by a strict order on
elements, as used by Python for comparing strings (lists of code points)
and path component tuples. A strict prefix is smaller. -/
def lexLt (lt : α → α → Bool) : List α → List α → Bool
  | [], [] => false
  | [], _ :: _ => true
  | _ :: _, [] => false
  | a :: as, b :: bs => if lt a b then true else if lt b a then false else lexLt lt as bs

/-- Python `<` on strings: lexicographic on code points. -/
def pyStrLt (a b : String) : Bool := lexLt charLtB a.data b.data

/-- One component of a filesystem path. -/
abbrev FsPath := List String

/-- Python `<` on `pathlib.PurePath` values: lexicographic comparison of the
component tuples (`PurePath.__lt__` compares `_parts_normcase`, the
identity on POSIX). -/
def partsLt (a b : FsPath) : Bool := lexLt pyStrLt a b

/-- Python `str(path)` for a POSIX path: components joined by slashes. -/
def pathStr (p : FsPath) : String := String.intercalate "/" p

/-- The whitespace characters stripped by Python's `str.strip()` (the ASCII
ones; the script's header markers and messages are ASCII). -/
def pyIsSpace (c : Char) : Bool :=
  c == ' ' || c == '\t' || c == '\n' || c == '\r' || c == Char.ofNat 11 || c == Char.ofNat 12

/-- Python `s.lstrip("#")`: drop leading `'#'` characters. -/
def pyLstripHash (s : String) : String := ⟨s.data.dropWhile (· == '#')⟩

/-- Python `s.strip()`: drop leading and trailing whitespace. -/
def pyStrip (s : String) : String :=
  ⟨((s.data.dropWhile pyIsSpace).reverse.dropWhile pyIsSpace).reverse⟩

/-- Bool test that `pre` is an initial segment of `s`, as in Python
`s.startswith(pre)`. -/
def pyStartsWith (s pre : String) : Bool := go pre.data s.data
where
  go : List Char → List Char → Bool
    | [], _ => true
    | _ :: _, [] => false
    | p :: ps, c :: cs => if p == c then go ps cs else false

/-- The `i`-th line of the stream; Python's `readline` yields `""` past the
end of the file. -/
def lineAt (ls : List String) (i : Nat) : String := ls.getD i ""

/-- A Python `datetime.datetime`: wall-clock fields plus an optional fixed
UTC offset in seconds (`none` models a naive datetime). -/
structure PyDatetime where
  year : Nat
  month : Nat
  day : Nat
  hour : Nat
  minute : Nat
  second : Nat
  microsecond : Nat
  offset : Option Int
deriving Repr, DecidableEq

/-- The ambient standard-library collaborators of the script, threaded
explicitly: `isoParse` models `datetime.datetime.fromisoformat` (returning
`none` where Python raises `ValueError`), `tzOffset` models the
`TZ_INFO` offset captured from `time.localtime().tm_gmtoff`, `strfDate`
models `strftime(DATETIME_FORMAT)`, and `nowStr` models the string
`generate_pub_date()` produces from the current local time. -/
structure Ctx where
  isoParse : String → Option PyDatetime
  tzOffset : Int
  strfDate : PyDatetime → String
  nowStr : String

/-- The `MarkdownFile` object: the backing stream's full content (kept via
`stream.seek(0)`), the parsed title and the parsed publication datetime. -/
structure MarkdownFile where
  lines : List String
  title : String
  pub_date : PyDatetime
deriving Repr, DecidableEq

/-- The constructor `MarkdownFile.__init__`: reads the first three lines, requires line one
to start with `"# "` and line three with `"## "`, parses the stripped date
text with `fromisoformat`, and stores
`date.combine(date.date(), date.time(), TZ_INFO)` — the same wall-clock
fields with the offset replaced by the local one. The error strings are the
`InvalidMarkdownFile` messages raised by the source. -/
def markdownFileInit (ctx : Ctx) (content : List String) : Except String MarkdownFile :=
  let title_line := lineAt content 0
  let date_line := lineAt content 2
  if pyStartsWith title_line "# " = false then .error "Missing title header"
  else if pyStartsWith date_line "## " = false then .error "Missing date header"
  else
    match ctx.isoParse (pyStrip (pyLstripHash date_line)) with
    | none => .error "Date header is not a valid ISO date"
    | some d =>
        .ok { lines := content
              title := pyStrip (pyLstripHash title_line)
              pub_date := { d with offset := some ctx.tzOffset } }

/-- The property `MarkdownFile.content`: runs the external `markdown` subprocess on the
whole backing file (after `seek(0)`, headers included). A non-zero exit
(`CalledProcessError`) is re-raised as `InvalidMarkdownFile` with the
renderer's standard-error text appended to the fixed message. -/
def markdownFileContent (render : List String → Except String String)
    (mf : MarkdownFile) : Except String String :=
  match render mf.lines with
  | .error stderr => .error ("Could not convert to Markdown " ++ stderr)
  | .ok out => .ok out

/-- A directory entry as `os.scandir` yields it: a regular file whose
`open` either succeeds with its content (`some`) or raises `OSError`
(`none`), or a subdirectory with its own entries in enumeration order. -/
inductive FSEntry where
  | file (name : String) (openResult : Option (List String))
  | dir (name : String) (entries : List FSEntry)
deriving Repr

mutual

/-- Number of nodes in one entry (termination measure for the walk). -/
def entrySize : FSEntry → Nat
  | .file _ _ => 1
  | .dir _ es => 1 + entriesSize es

/-- Number of nodes below a list of entries. -/
def entriesSize : List FSEntry → Nat
  | [] => 0
  | e :: es => entrySize e + entriesSize es

end

/-- The loop guard of `collect_md_files` combined: the Python code sets
`target = max_files if max_files else math.inf`, so `None` and `0` are both
falsy and give an infinite target that `len(md_files)` never reaches, while
a positive `max_files` is reached once `len(md_files) >= max_files`. -/
def reachedTarget : Option Nat → Nat → Bool
  | none, _ => false
  | some 0, _ => false
  | some (m + 1), n => decide (m + 1 ≤ n)

/-- One execution of the `for dir_entry in os.scandir(current)` body over a
directory's entries: subdirectories are pushed on the work stack (head is
the top, matching `list.append`/`list.pop`), a file is opened and parsed —
`InvalidMarkdownFile` is caught and recorded as a skip line, while an
`OSError` from `open` is uncaught and aborts the whole walk (the `.error`
case) — and after each file the loop breaks once the target is reached. -/
def scanEntries (ctx : Ctx) (max_files : Option Nat) (parent : FsPath) :
    List FSEntry → List (FsPath × MarkdownFile) → List String →
    List (FsPath × List FSEntry) →
    Except FsPath (List (FsPath × MarkdownFile) × List String × List (FsPath × List FSEntry))
  | [], md, sk, stack => .ok (md, sk, stack)
  | .dir name entries :: rest, md, sk, stack =>
      scanEntries ctx max_files parent rest md sk ((parent ++ [name], entries) :: stack)
  | .file name none :: _, _, _, _ => .error (parent ++ [name])
  | .file name (some content) :: rest, md, sk, stack =>
      let path := parent ++ [name]
      let mdsk :=
        match markdownFileInit ctx content with
        | .ok mf => (md ++ [(path, mf)], sk)
        | .error msg => (md, sk ++ ["Skipped " ++ pathStr path ++ ": " ++ msg])
      if reachedTarget max_files mdsk.1.length then .ok (mdsk.1, mdsk.2, stack)
      else scanEntries ctx max_files parent rest mdsk.1 mdsk.2 stack

/-- Termination measure: total node weight of the directories waiting on
the stack. -/
def stackWeight : List (FsPath × List FSEntry) → Nat
  | [] => 0
  | t :: rest => 1 + entriesSize t.2 + stackWeight rest

theorem scanEntries_stackWeight (ctx : Ctx) (max_files : Option Nat) (parent : FsPath)
    (es : List FSEntry) (md : List (FsPath × MarkdownFile)) (sk : List String)
    (stack : List (FsPath × List FSEntry)) (md' : List (FsPath × MarkdownFile))
    (sk' : List String) (st' : List (FsPath × List FSEntry))
    (h : scanEntries ctx max_files parent es md sk stack = .ok (md', sk', st')) :
    stackWeight st' ≤ entriesSize es + stackWeight stack := by
  induction es generalizing md sk stack with
  | nil => simp [scanEntries] at h; simp [h.2.2]
  | cons e rest ih =>
    cases e with
    | dir name es2 =>
      simp only [scanEntries] at h
      have := ih _ _ _ h
      simp [stackWeight, entrySize, entriesSize] at this ⊢
      omega
    | file name o =>
      cases o with
      | none => simp [scanEntries] at h
      | some c =>
        simp only [scanEntries] at h
        cases hinit : markdownFileInit ctx c with
        | ok mf =>
          simp only [hinit] at h
          split at h
          · simp at h
            obtain ⟨h1, h2, h3⟩ := h
            subst h3
            simp [entrySize, entriesSize]
          · have := ih _ _ _ h
            simp [entrySize, entriesSize] at this ⊢
            omega
        | error msg =>
          simp only [hinit] at h
          split at h
          · simp at h
            obtain ⟨h1, h2, h3⟩ := h
            subst h3
            simp [entrySize, entriesSize]
          · have := ih _ _ _ h
            simp [entrySize, entriesSize] at this ⊢
            omega

/-- The `while stack and len(md_files) < target` loop of
`collect_md_files`: pop the top directory and scan its entries, stopping
when the stack empties or the target is reached, and propagating an
uncaught `OSError` from a file `open`. -/
def collectLoop (ctx : Ctx) (max_files : Option Nat) :
    List (FsPath × List FSEntry) → List (FsPath × MarkdownFile) → List String →
    Except FsPath (List (FsPath × MarkdownFile) × List String)
  | [], md, sk => .ok (md, sk)
  | top :: rest, md, sk =>
    if reachedTarget max_files md.length then .ok (md, sk)
    else
      match h : scanEntries ctx max_files top.1 top.2 md sk rest with
      | .error q => .error q
      | .ok (md', sk', st') => collectLoop ctx max_files st' md' sk'
termination_by s _ _ => stackWeight s
decreasing_by
  have := scanEntries_stackWeight ctx max_files top.1 top.2 md sk rest md' sk' st' h
  simp [stackWeight] at *
  omega

/-- One insertion step of the final `md_files.sort()`. The list elements
are `(path, MarkdownFile)` tuples, so Python's tuple comparison orders them
by the path alone whenever the paths differ (paths produced by a walk of a
real directory tree are pairwise distinct; on equal paths CPython would
raise `TypeError` trying to compare `MarkdownFile` objects). -/
def insertByPath (x : FsPath × MarkdownFile) :
    List (FsPath × MarkdownFile) → List (FsPath × MarkdownFile)
  | [] => [x]
  | y :: ys => if partsLt x.1 y.1 then x :: y :: ys else y :: insertByPath x ys

/-- The final `md_files.sort()`: an ascending sort of the collected
`(path, MarkdownFile)` tuples under Python tuple comparison. -/
def sortByPath : List (FsPath × MarkdownFile) → List (FsPath × MarkdownFile)
  | [] => []
  | x :: xs => insertByPath x (sortByPath xs)

/-- The function `collect_md_files(directory, max_files)`. The input directory is given
as its path together with its `os.scandir` entries. The returned ordered
mapping `dict(md_files)` is modelled by the sorted association list itself
(its keys are pairwise distinct paths, so `dict` keeps every pair and
preserves the sorted insertion order). -/
def collect_md_files (ctx : Ctx) (directory : FsPath × List FSEntry)
    (max_files : Option Nat) :
    Except FsPath (List (FsPath × MarkdownFile) × List String) :=
  match collectLoop ctx max_files [directory] [] [] with
  | .error q => .error q
  | .ok (md, sk) => .ok (sortByPath md, sk)

mutual

/-- All posts below one directory entry that `MarkdownFile.__init__` would
accept, paired with their paths, in tree order. -/
def eligEntry (ctx : Ctx) (parent : FsPath) : FSEntry → List (FsPath × MarkdownFile)
  | .file _ none => []
  | .file name (some content) =>
      match markdownFileInit ctx content with
      | .ok mf => [(parent ++ [name], mf)]
      | .error _ => []
  | .dir name es => eligList ctx (parent ++ [name]) es

/-- All eligible posts below a list of entries, in enumeration order. -/
def eligList (ctx : Ctx) (parent : FsPath) : List FSEntry → List (FsPath × MarkdownFile)
  | [] => []
  | e :: es => eligEntry ctx parent e ++ eligList ctx parent es

end

/-- One RSS `<item>` element: title, rendered description and formatted
publication date, as `append_item` builds it. -/
structure RssItem where
  title : String
  description : String
  pubDate : String
deriving Repr, DecidableEq

/-- The attributes `RssElementTree.__init__` puts on the root element
(note the source misspells the Atom namespace attribute as
`xlmns:atom`). -/
def rssRootAttribs : List (String × String) :=
  [("version", "2.0"), ("xlmns:atom", "http://www.w3.org/2005/Atom")]

/-- The feed document built by `RssElementTree`: root attributes, the
channel's metadata children in document order, and the `<item>` list. -/
structure RssElementTree where
  rootAttribs : List (String × String)
  channelTitle : String
  channelDescription : String
  channelLink : String
  atomLinkHref : String
  pubDate : String
  lastBuildDate : String
  generatorName : String
  items : List RssItem
deriving Repr, DecidableEq

/-- The constructor `RssElementTree.__init__`: builds the `<rss>` root with its attribute
dict and the `<channel>` metadata children; a `None` publication date is
replaced by `generate_pub_date()` (the current local time, `Ctx.nowStr`). -/
def rssElementTreeInit (ctx : Ctx) (title description url : String)
    (pub_date : Option String) : RssElementTree :=
  let pd := match pub_date with
            | none => ctx.nowStr
            | some s => s
  { rootAttribs := rssRootAttribs
    channelTitle := title
    channelDescription := description
    channelLink := url
    atomLinkHref := url ++ "feed.xml"
    pubDate := pd
    lastBuildDate := pd
    generatorName := "simple-site"
    items := [] }

/-- The method `RssElementTree.append_item`: renders the file's content (the renderer
runs here, not during collection) and appends the `<item>`; a renderer
failure raises before the item is attached, leaving the tree unchanged. -/
def append_item (ctx : Ctx) (render : List String → Except String String)
    (tree : RssElementTree) (mf : MarkdownFile) : Except String RssElementTree :=
  match markdownFileContent render mf with
  | .error msg => .error msg
  | .ok html =>
      .ok { tree with
              items := tree.items ++
                [{ title := mf.title, description := html,
                   pubDate := ctx.strfDate mf.pub_date }] }

/-- The `for path, md_file in md_files.items()` loop of `main`: append each
collected post to the feed, recording an `InvalidMarkdownFile` raised by
the renderer as a skip line instead of aborting. -/
def mainItems (ctx : Ctx) (render : List String → Except String String) :
    List (FsPath × MarkdownFile) → RssElementTree → List FsPath → List String →
    RssElementTree × List FsPath × List String
  | [], tree, inc, errs => (tree, inc, errs)
  | (p, mf) :: rest, tree, inc, errs =>
      match append_item ctx render tree mf with
      | .ok tree' => mainItems ctx render rest tree' (inc ++ [p]) errs
      | .error msg =>
          mainItems ctx render rest tree inc
            (errs ++ ["Skipped " ++ pathStr p ++ ": " ++ msg])

/-- The diagnostic `main` returns when no files were collected. The two
adjacent Python string literals concatenate without a space, giving
`fileextensions`. -/
def noFilesMessage (dirPath : FsPath) : String :=
  "No markdown files found in " ++ pathStr dirPath ++
    " (we are dumb and only check for \".md\" fileextensions)"

/-- The function `main(directory, title, description, url, max_files)`: collect, and
either report the empty-collection diagnostic (discarding the collected
skip lines, as the source does) or build the feed and append every
collected post. An uncaught `OSError` from the walk propagates. -/
def rssMain (ctx : Ctx) (render : List String → Except String String)
    (directory : FsPath × List FSEntry) (title description url : String)
    (max_files : Option Nat) :
    Except FsPath (Option RssElementTree × List FsPath × List String) :=
  match collect_md_files ctx directory max_files with
  | .error q => .error q
  | .ok (md_files, errors) =>
    if md_files.isEmpty then .ok (none, [], [noFilesMessage directory.1])
    else
      let tree := rssElementTreeInit ctx title description url none
      let r := mainItems ctx render md_files tree [] errors
      .ok (some r.1, r.2.1, r.2.2)

theorem lexLt_asymm (lt : α → α → Bool) (hA : ∀ a b, lt a b = true → lt b a = false) :
    ∀ as bs, lexLt lt as bs = true → lexLt lt bs as = false := by
  intro as
  induction as with
  | nil => intro bs h; cases bs <;> simp_all [lexLt]
  | cons a as ih =>
    intro bs h
    cases bs with
    | nil => simp [lexLt] at h
    | cons b bs =>
      simp only [lexLt] at h ⊢
      by_cases hab : lt a b = true
      · have hba := hA _ _ hab
        simp [hab, hba]
      · simp only [hab, if_false] at h
        by_cases hba : lt b a = true
        · simp [hba] at h
        · simp only [Bool.not_eq_true] at hab hba
          simp only [hab, hba, Bool.false_eq_true, if_false] at h ⊢
          exact ih bs h

theorem lexLt_conn (lt : α → α → Bool)
    (hC : ∀ a b, lt a b = false → lt b a = false → a = b) :
    ∀ as bs, lexLt lt as bs = false → lexLt lt bs as = false → as = bs := by
  intro as
  induction as with
  | nil => intro bs h1 _; cases bs <;> simp_all [lexLt]
  | cons a as ih =>
    intro bs h1 h2
    cases bs with
    | nil => simp [lexLt] at h2
    | cons b bs =>
      simp only [lexLt] at h1 h2
      by_cases hab : lt a b = true
      · simp [hab] at h1
      · by_cases hba : lt b a = true
        · simp [hba] at h2
        · simp only [Bool.not_eq_true] at hab hba
          simp only [hab, hba, if_false, Bool.false_eq_true] at h1 h2
          have he := hC _ _ hab hba
          subst he
          rw [ih bs h1 h2]

theorem lexLt_trans (lt : α → α → Bool)
    (hA : ∀ a b, lt a b = true → lt b a = false)
    (hC : ∀ a b, lt a b = false → lt b a = false → a = b)
    (hT : ∀ a b c, lt a b = true → lt b c = true → lt a c = true) :
    ∀ as bs cs, lexLt lt as bs = true → lexLt lt bs cs = true →
      lexLt lt as cs = true := by
  intro as
  induction as with
  | nil =>
    intro bs cs h1 h2
    cases bs with
    | nil => simp [lexLt] at h1
    | cons b bs => cases cs with
      | nil => simp [lexLt] at h2
      | cons c cs => simp [lexLt]
  | cons a as ih =>
    intro bs cs h1 h2
    cases bs with
    | nil => simp [lexLt] at h1
    | cons b bs =>
      cases cs with
      | nil => simp [lexLt] at h2
      | cons c cs =>
        simp only [lexLt] at h1 h2 ⊢
        by_cases hab : lt a b = true
        · by_cases hbc : lt b c = true
          · simp [hT _ _ _ hab hbc]
          · by_cases hcb : lt c b = true
            · simp [hab, hbc, hcb] at h2
            · simp only [Bool.not_eq_true] at hbc hcb
              have he := hC _ _ hbc hcb
              subst he
              simp [hab]
        · by_cases hba : lt b a = true
          · simp [hab, hba] at h1
          · simp only [Bool.not_eq_true] at hab hba
            have he := hC _ _ hab hba
            subst he
            simp only [hab, if_false, Bool.false_eq_true] at h1 ⊢
            by_cases hac : lt a c = true
            · simp [hac]
            · by_cases hca : lt c a = true
              · simp only [Bool.not_eq_true] at hac
                simp [hac, hca] at h2
              · simp only [Bool.not_eq_true] at hac hca
                simp only [hac, hca, Bool.false_eq_true, if_false] at h2 ⊢
                exact ih bs cs h1 h2

theorem charLtB_asymm (a b : Char) (h : charLtB a b = true) : charLtB b a = false := by
  simp [charLtB] at h ⊢; omega

theorem charLtB_conn (a b : Char) (h1 : charLtB a b = false) (h2 : charLtB b a = false) :
    a = b := by
  simp [charLtB] at h1 h2
  have : a.toNat = b.toNat := by omega
  have hv : a.val = b.val := by
    have h3 : a.val.toNat = b.val.toNat := this
    exact UInt32.toNat.inj h3
  cases a; cases b; simp_all

theorem charLtB_trans (a b c : Char) (h1 : charLtB a b = true) (h2 : charLtB b c = true) :
    charLtB a c = true := by
  simp [charLtB] at h1 h2 ⊢; omega

theorem pyStrLt_asymm (a b : String) (h : pyStrLt a b = true) : pyStrLt b a = false :=
  lexLt_asymm charLtB charLtB_asymm a.data b.data h

theorem pyStrLt_conn (a b : String) (h1 : pyStrLt a b = false) (h2 : pyStrLt b a = false) :
    a = b := by
  have := lexLt_conn charLtB charLtB_conn a.data b.data h1 h2
  cases a; cases b; simp_all

theorem pyStrLt_trans (a b c : String) (h1 : pyStrLt a b = true) (h2 : pyStrLt b c = true) :
    pyStrLt a c = true :=
  lexLt_trans charLtB charLtB_asymm charLtB_conn charLtB_trans a.data b.data c.data h1 h2

theorem partsLt_asymm (a b : FsPath) (h : partsLt a b = true) : partsLt b a = false :=
  lexLt_asymm pyStrLt pyStrLt_asymm a b h

theorem partsLt_trans (a b c : FsPath) (h1 : partsLt a b = true) (h2 : partsLt b c = true) :
    partsLt a c = true :=
  lexLt_trans pyStrLt pyStrLt_asymm pyStrLt_conn pyStrLt_trans a b c h1 h2

theorem insertByPath_perm (x : FsPath × MarkdownFile) (l : List (FsPath × MarkdownFile)) :
    List.Perm (insertByPath x l) (x :: l) := by
  induction l with
  | nil => simp [insertByPath]
  | cons y ys ih =>
    simp only [insertByPath]
    by_cases h : partsLt x.1 y.1 = true
    · simp [h]
    · simp only [h, if_false]
      exact ((ih.cons y).trans (List.Perm.swap x y ys))

theorem sortByPath_perm (l : List (FsPath × MarkdownFile)) :
    List.Perm (sortByPath l) l := by
  induction l with
  | nil => simp [sortByPath]
  | cons x xs ih => exact (insertByPath_perm x (sortByPath xs)).trans (ih.cons x)

theorem sortByPath_length (l : List (FsPath × MarkdownFile)) :
    (sortByPath l).length = l.length :=
  (sortByPath_perm l).length_eq

theorem sortByPath_mem (x : FsPath × MarkdownFile) (l : List (FsPath × MarkdownFile)) :
    x ∈ sortByPath l ↔ x ∈ l :=
  (sortByPath_perm l).mem_iff

/-- The non-strict path order the sorted output satisfies between any two
elements in sequence: the later one is not below the earlier one. -/
def pathNondecreasing (a b : FsPath × MarkdownFile) : Prop := partsLt b.1 a.1 = false

theorem insertByPath_pairwise (x : FsPath × MarkdownFile)
    (l : List (FsPath × MarkdownFile)) (h : List.Pairwise pathNondecreasing l) :
    List.Pairwise pathNondecreasing (insertByPath x l) := by
  induction l with
  | nil => simp [insertByPath, List.Pairwise]
  | cons y ys ih =>
    simp only [insertByPath]
    rcases List.pairwise_cons.mp h with ⟨hy, hys⟩
    by_cases hxy : partsLt x.1 y.1 = true
    · simp only [hxy, if_true]
      refine List.pairwise_cons.mpr ⟨?_, h⟩
      intro z hz
      rcases List.mem_cons.mp hz with rfl | hz2
      · exact partsLt_asymm _ _ hxy
      · have hyz := hy _ hz2
        unfold pathNondecreasing at *
        by_cases hzx : partsLt z.1 x.1 = true
        · have := partsLt_trans _ _ _ hzx hxy
          rw [this] at hyz
          simp at hyz
        · simpa using hzx
    · simp only [hxy, if_false]
      refine List.pairwise_cons.mpr ⟨?_, ih hys⟩
      intro z hz
      have hz' := (insertByPath_perm x ys).mem_iff.mp hz
      rcases List.mem_cons.mp hz' with rfl | hz2
      · unfold pathNondecreasing
        simpa using hxy
      · exact hy _ hz2

theorem sortByPath_pairwise (l : List (FsPath × MarkdownFile)) :
    List.Pairwise pathNondecreasing (sortByPath l) := by
  induction l with
  | nil => simp [sortByPath]
  | cons x xs ih => exact insertByPath_pairwise x (sortByPath xs) ih

/-- A concrete `fromisoformat` fragment used by concrete runs: recognises
the two dates appearing in the sample posts as naive datetimes. -/
def isoParseSample : String → Option PyDatetime := fun s =>
  if s = "2023-01-01" then some ⟨2023, 1, 1, 0, 0, 0, 0, none⟩
  else if s = "2023-01-02" then some ⟨2023, 1, 2, 0, 0, 0, 0, none⟩
  else none

/-- A concrete environment: UTC host (offset 0), fixed strings for the
formatted dates. -/
def ctxSample : Ctx :=
  { isoParse := isoParseSample
    tzOffset := 0
    strfDate := fun _ => "formatted-date"
    nowStr := "now-date" }

/-- Content of `markdown/a.md` in the sample tree: later date, earlier
path. -/
def alphaLines : List String := ["# Alpha", "", "## 2023-01-02", "Body A"]

/-- Content of `markdown/b.md` in the sample tree: earlier date, later
path. -/
def betaLines : List String := ["# Beta", "", "## 2023-01-01", "Body B"]

/-- The sample input directory `markdown/` with the two posts. -/
def dirSample : FsPath × List FSEntry :=
  (["markdown"], [.file "a.md" (some alphaLines), .file "b.md" (some betaLines)])

/-- The post parsed from `a.md`. -/
def mfAlpha : MarkdownFile :=
  { lines := alphaLines, title := "Alpha"
    pub_date := ⟨2023, 1, 2, 0, 0, 0, 0, some 0⟩ }

/-- The post parsed from `b.md`. -/
def mfBeta : MarkdownFile :=
  { lines := betaLines, title := "Beta"
    pub_date := ⟨2023, 1, 1, 0, 0, 0, 0, some 0⟩ }

theorem reachedTarget_some_pos (N n : Nat) (hN : 0 < N) :
    (reachedTarget (some N) n = true ↔ N ≤ n) := by
  cases N with
  | zero => omega
  | succ m => simp [reachedTarget]

theorem scanEntries_bound (ctx : Ctx) (N : Nat) (hN : 0 < N) (parent : FsPath) :
    ∀ es md sk stack md' sk' st',
      md.length < N →
      scanEntries ctx (some N) parent es md sk stack = .ok (md', sk', st') →
      md'.length ≤ N := by
  intro es
  induction es with
  | nil =>
    intro md sk stack md' sk' st' hlt h
    simp [scanEntries] at h
    obtain ⟨h1, h2, h3⟩ := h
    subst h1
    omega
  | cons e rest ih =>
    intro md sk stack md' sk' st' hlt h
    cases e with
    | dir name es2 =>
      simp only [scanEntries] at h
      exact ih _ _ _ _ _ _ hlt h
    | file name o =>
      cases o with
      | none => simp [scanEntries] at h
      | some c =>
        simp only [scanEntries] at h
        cases hinit : markdownFileInit ctx c with
        | ok mf =>
          simp only [hinit] at h
          split at h
          · simp at h
            obtain ⟨h1, h2, h3⟩ := h
            subst h1
            simp
            omega
          · rename_i hre
            rw [Bool.not_eq_true] at hre
            have hlt2 : (md ++ [(parent ++ [name], mf)]).length < N := by
              by_contra hcon
              have hcon2 : N ≤ md.length + 1 := by
                simp at hcon
                omega
              have ht := (reachedTarget_some_pos N (md.length + 1) hN).mpr hcon2
              simp [ht] at hre
            exact ih _ _ _ _ _ _ hlt2 h
        | error msg =>
          simp only [hinit] at h
          split at h
          · simp at h
            obtain ⟨h1, h2, h3⟩ := h
            subst h1
            omega
          · exact ih _ _ _ _ _ _ hlt h

theorem collectLoop_bound (ctx : Ctx) (N : Nat) (hN : 0 < N) :
    ∀ stack md sk md' sk',
      md.length ≤ N →
      collectLoop ctx (some N) stack md sk = .ok (md', sk') →
      md'.length ≤ N := by
  intro stack md sk
  induction stack, md, sk using collectLoop.induct ctx (some N) with
  | case1 md sk =>
    intro md' sk' hle h
    simp [collectLoop] at h
    obtain ⟨h1, h2⟩ := h
    subst h1
    exact hle
  | case2 top rest md sk hre =>
    intro md' sk' hle h
    rw [collectLoop] at h
    simp [hre] at h
    obtain ⟨h1, h2⟩ := h
    subst h1
    exact hle
  | case3 top rest md sk hre q hq =>
    intro md' sk' hle h
    rw [collectLoop] at h
    simp only [hre, Bool.false_eq_true, if_false, ite_false] at h
    rw [hq] at h
    simp at h
  | case4 top rest md sk hre md2 sk2 st2 hscan ih =>
    intro md' sk' hle h
    rw [collectLoop] at h
    simp only [hre, Bool.false_eq_true, if_false, ite_false] at h
    rw [hscan] at h
    have hmdlt : md.length < N := by
      by_contra hcon
      exact hre ((reachedTarget_some_pos N md.length hN).mpr (by omega))
    have hb := scanEntries_bound ctx N hN top.1 top.2 md sk rest md2 sk2 st2 hmdlt hscan
    exact ih md' sk' hb h

/-- The eligible posts among the file entries of one directory (the posts
the scan loop itself appends, subdirectories excluded). -/
def eligFilesOnly (ctx : Ctx) (parent : FsPath) : List FSEntry → List (FsPath × MarkdownFile)
  | [] => []
  | .file name (some content) :: rest =>
      (match markdownFileInit ctx content with
       | .ok mf => [(parent ++ [name], mf)]
       | .error _ => []) ++ eligFilesOnly ctx parent rest
  | .file _ none :: rest => eligFilesOnly ctx parent rest
  | .dir _ _ :: rest => eligFilesOnly ctx parent rest

/-- The subdirectory entries of one directory, with their paths, in
enumeration order. -/
def subdirsOf (parent : FsPath) : List FSEntry → List (FsPath × List FSEntry)
  | [] => []
  | .dir name es :: rest => (parent ++ [name], es) :: subdirsOf parent rest
  | .file _ _ :: rest => subdirsOf parent rest

/-- All eligible posts below the directories waiting on the work stack. -/
def stackElig (ctx : Ctx) : List (FsPath × List FSEntry) → List (FsPath × MarkdownFile)
  | [] => []
  | t :: rest => eligList ctx t.1 t.2 ++ stackElig ctx rest

theorem stackElig_append (ctx : Ctx) (a b : List (FsPath × List FSEntry)) :
    stackElig ctx (a ++ b) = stackElig ctx a ++ stackElig ctx b := by
  induction a with
  | nil => simp [stackElig]
  | cons t ts ih => simp [stackElig, ih]

theorem scanEntries_unbounded (ctx : Ctx) (max_files : Option Nat)
    (hU : ∀ n, reachedTarget max_files n = false) (parent : FsPath) :
    ∀ es md sk stack md' sk' st',
      scanEntries ctx max_files parent es md sk stack = .ok (md', sk', st') →
      md' = md ++ eligFilesOnly ctx parent es ∧
        st' = (subdirsOf parent es).reverse ++ stack := by
  intro es
  induction es with
  | nil =>
    intro md sk stack md' sk' st' h
    simp [scanEntries] at h
    simp [eligFilesOnly, subdirsOf, h.1.symm, h.2.2.symm]
  | cons e rest ih =>
    intro md sk stack md' sk' st' h
    cases e with
    | dir name es2 =>
      simp only [scanEntries] at h
      obtain ⟨h1, h2⟩ := ih _ _ _ _ _ _ h
      simp [eligFilesOnly, subdirsOf, h1, h2]
    | file name o =>
      cases o with
      | none => simp [scanEntries] at h
      | some c =>
        simp only [scanEntries] at h
        cases hinit : markdownFileInit ctx c with
        | ok mf =>
          simp only [hinit, hU, Bool.false_eq_true, if_false] at h
          obtain ⟨h1, h2⟩ := ih _ _ _ _ _ _ h
          simp [eligFilesOnly, subdirsOf, hinit, h1, h2]
        | error msg =>
          simp only [hinit, hU, Bool.false_eq_true, if_false] at h
          obtain ⟨h1, h2⟩ := ih _ _ _ _ _ _ h
          simp [eligFilesOnly, subdirsOf, hinit, h1, h2]

theorem eligSplit_perm (ctx : Ctx) (parent : FsPath) (es : List FSEntry) :
    List.Perm
      (eligFilesOnly ctx parent es ++ stackElig ctx (subdirsOf parent es).reverse)
      (eligList ctx parent es) := by
  induction es with
  | nil => simp [eligFilesOnly, subdirsOf, stackElig, eligList]
  | cons e rest ih =>
    cases e with
    | file name o =>
      cases o with
      | none => simpa [eligFilesOnly, subdirsOf, eligList, eligEntry] using ih
      | some c =>
        simp only [eligFilesOnly, subdirsOf, eligList, eligEntry, List.append_assoc]
        exact List.Perm.append_left _ ih
    | dir name es2 =>
      simp only [eligFilesOnly, subdirsOf, eligList, eligEntry, List.reverse_cons,
        stackElig_append]
      simp only [stackElig, List.append_nil]
      rw [← List.append_assoc]
      exact (List.Perm.append_right _ ih).trans List.perm_append_comm

theorem collectLoop_unbounded (ctx : Ctx) (max_files : Option Nat)
    (hU : ∀ n, reachedTarget max_files n = false) :
    ∀ stack md sk md' sk',
      collectLoop ctx max_files stack md sk = .ok (md', sk') →
      List.Perm md' (md ++ stackElig ctx stack) := by
  intro stack md sk
  induction stack, md, sk using collectLoop.induct ctx max_files with
  | case1 md sk =>
    intro md' sk' h
    simp [collectLoop] at h
    simp [stackElig, h.1.symm]
  | case2 top rest md sk hre =>
    intro md' sk' h
    rw [hU] at hre
    simp at hre
  | case3 top rest md sk hre q hq =>
    intro md' sk' h
    rw [collectLoop] at h
    simp only [hre, Bool.false_eq_true, if_false, ite_false] at h
    rw [hq] at h
    simp at h
  | case4 top rest md sk hre md2 sk2 st2 hscan ih =>
    intro md' sk' h
    rw [collectLoop] at h
    simp only [hre, Bool.false_eq_true, if_false, ite_false] at h
    rw [hscan] at h
    have hperm := ih md' sk' h
    obtain ⟨h1, h2⟩ := scanEntries_unbounded ctx max_files hU top.1 top.2 md sk rest
      md2 sk2 st2 hscan
    subst h1
    subst h2
    refine hperm.trans ?_
    rw [stackElig_append, List.append_assoc]
    refine List.Perm.append_left md ?_
    rw [← List.append_assoc]
    simp only [stackElig]
    refine (List.Perm.append_right _ (eligSplit_perm ctx top.1 top.2)).symm.symm.trans ?_
    exact List.Perm.refl _

theorem scanEntries_congr (ctx : Ctx) (m1 m2 : Option Nat)
    (hr : ∀ n, reachedTarget m1 n = reachedTarget m2 n) (parent : FsPath) :
    ∀ es md sk stack,
      scanEntries ctx m1 parent es md sk stack = scanEntries ctx m2 parent es md sk stack := by
  intro es
  induction es with
  | nil => intro md sk stack; simp [scanEntries]
  | cons e rest ih =>
    intro md sk stack
    cases e with
    | dir name es2 => simp only [scanEntries]; exact ih _ _ _
    | file name o =>
      cases o with
      | none => simp [scanEntries]
      | some c =>
        simp only [scanEntries]
        cases markdownFileInit ctx c with
        | ok mf => simp only [hr]; split <;> simp [ih]
        | error msg => simp only [hr]; split <;> simp [ih]

theorem collectLoop_congr (ctx : Ctx) (m1 m2 : Option Nat)
    (hr : ∀ n, reachedTarget m1 n = reachedTarget m2 n) :
    ∀ stack md sk,
      collectLoop ctx m1 stack md sk = collectLoop ctx m2 stack md sk := by
  intro stack md sk
  induction stack, md, sk using collectLoop.induct ctx m1 with
  | case1 md sk => simp [collectLoop]
  | case2 top rest md sk hre =>
    rw [collectLoop, collectLoop, hre, ← hr, hre]
    simp
  | case3 top rest md sk hre q hq =>
    rw [collectLoop, collectLoop, ← hr]
    simp only [hre, Bool.false_eq_true, if_false, ite_false]
    rw [hq, ← scanEntries_congr ctx m1 m2 hr top.1 top.2 md sk rest, hq]
  | case4 top rest md sk hre md2 sk2 st2 hscan ih =>
    rw [collectLoop, collectLoop, ← hr]
    simp only [hre, Bool.false_eq_true, if_false, ite_false]
    rw [hscan, ← scanEntries_congr ctx m1 m2 hr top.1 top.2 md sk rest, hscan]
    exact ih

/-- The wall-clock comparison tuple of a datetime. Python compares aware
datetimes by UTC instant; every `pub_date` the script constructs carries
the same fixed local offset, so their comparison reduces to this tuple. -/
def dtKey (d : PyDatetime) : List Nat :=
  [d.year, d.month, d.day, d.hour, d.minute, d.second, d.microsecond]

/-- Strict order on `Nat` as a `Bool`. -/
def natLtB (a b : Nat) : Bool := decide (a < b)

/-- Strict order on posts by the spec's sort key `(published_at, title)`. -/
def postKeyLt (a b : MarkdownFile) : Bool :=
  lexLt natLtB (dtKey a.pub_date) (dtKey b.pub_date) ||
    (dtKey a.pub_date == dtKey b.pub_date && pyStrLt a.title b.title)

/-- A post list is non-decreasing in the spec key `(published_at, title)`:
no later element is strictly below an earlier one. -/
def specKeyNondecreasing (l : List (FsPath × MarkdownFile)) : Prop :=
  List.Pairwise (fun a b => postKeyLt b.2 a.2 = false) l

/-- The collector's output on the sample tree: path order, `a.md` first. -/
def mdSampleOut : List (FsPath × MarkdownFile) :=
  [(["markdown", "a.md"], mfAlpha), (["markdown", "b.md"], mfBeta)]

theorem initAlpha_eval : markdownFileInit ctxSample alphaLines = .ok mfAlpha := by rfl

theorem initBeta_eval : markdownFileInit ctxSample betaLines = .ok mfBeta := by rfl

theorem collectSample_eval :
    collect_md_files ctxSample dirSample none = .ok (mdSampleOut, []) := by
  simp [collect_md_files, collectLoop, scanEntries, reachedTarget, dirSample,
    initAlpha_eval, initBeta_eval, sortByPath, insertByPath, mdSampleOut]
  decide

theorem collectSampleOne_eval :
    collect_md_files ctxSample dirSample (some 1) =
      .ok ([(["markdown", "a.md"], mfAlpha)], []) := by
  simp [collect_md_files, collectLoop, scanEntries, reachedTarget, dirSample,
    initAlpha_eval, initBeta_eval, sortByPath, insertByPath]

theorem collectEmptyDir_eval :
    collect_md_files ctxSample (["empty"], []) none = .ok ([], []) := by
  simp [collect_md_files, collectLoop, scanEntries, reachedTarget, sortByPath]

/-- Content of `posts/g.md`: parses fine, but the renderer will reject it. -/
def gammaLines : List String := ["# Gamma", "", "## 2023-01-01", "bad body"]

/-- Content of `posts/h.md`: parses fine and renders fine. -/
def deltaLines : List String := ["# Delta", "", "## 2023-01-02", "good body"]

/-- A renderer that fails (non-zero exit with a diagnostic on standard
error) exactly on `g.md`'s content. -/
def renderFailGamma : List String → Except String String := fun ls =>
  if ls = gammaLines then .error "renderer blew up" else .ok "<p>html</p>"

/-- A directory holding the render-failing post first and a healthy post
second. -/
def dirRender : FsPath × List FSEntry :=
  (["posts"], [.file "g.md" (some gammaLines), .file "h.md" (some deltaLines)])

/-- The post parsed from `g.md`. -/
def mfGamma : MarkdownFile :=
  { lines := gammaLines, title := "Gamma"
    pub_date := ⟨2023, 1, 1, 0, 0, 0, 0, some 0⟩ }

theorem initGamma_eval : markdownFileInit ctxSample gammaLines = .ok mfGamma := by rfl

theorem collectRender_eval :
    collect_md_files ctxSample dirRender (some 1) =
      .ok ([(["posts", "g.md"], mfGamma)], []) := by
  simp [collect_md_files, collectLoop, scanEntries, reachedTarget, dirRender,
    initGamma_eval, sortByPath, insertByPath]

/-- Any run whose loop guard can never fire (an unset or falsy `max_files`)
collects exactly the eligible posts of the tree, up to the final sort. -/
theorem collect_unbounded_perm (ctx : Ctx) (directory : FsPath × List FSEntry)
    (max_files : Option Nat) (hU : ∀ n, reachedTarget max_files n = false)
    (md : List (FsPath × MarkdownFile)) (sk : List String)
    (h : collect_md_files ctx directory max_files = .ok (md, sk)) :
    List.Perm md (eligList ctx directory.1 directory.2) := by
  unfold collect_md_files at h
  cases hc : collectLoop ctx max_files [directory] [] [] with
  | error q => rw [hc] at h; simp at h
  | ok r =>
    obtain ⟨md0, sk0⟩ := r
    rw [hc] at h
    simp at h
    have hp := collectLoop_unbounded ctx max_files hU [directory] [] [] md0 sk0 hc
    rw [← h.1]
    refine (sortByPath_perm md0).trans (hp.trans ?_)
    simp [stackElig]

/-- Claim C1: the spec asserts that the ordered mapping the Directory
Collector returns is always non-decreasing in the key
`(published_at, title)`. The code sorts the `(path, MarkdownFile)` tuples,
which Python orders by the path component: on a tree where `a.md` holds the
post `Alpha` dated 2023-01-02 and `b.md` holds `Beta` dated 2023-01-01, the
returned order is `Alpha` then `Beta`, strictly decreasing in the spec key.
The function's own docstring promises the date-then-title order, so this is
a bug in the code rather than in the claim. -/
theorem collect_not_sorted_by_spec_key :
    collect_md_files ctxSample dirSample none = .ok (mdSampleOut, []) ∧
    ¬ specKeyNondecreasing mdSampleOut := by
  refine ⟨collectSample_eval, ?_⟩
  intro hp
  simp [specKeyNondecreasing, mdSampleOut, List.pairwise_cons] at hp
  exact absurd hp (by decide)

/-- Claim C2: with a positive `max_files = N` the collector returns at most
`N` successfully loaded posts, and with `max_files` unset (`None`) it
returns exactly the eligible posts under the root (as a permutation,
i.e. every eligible post and nothing else). -/
theorem collect_bound_and_exhaustive (ctx : Ctx) (directory : FsPath × List FSEntry)
    (max_files : Option Nat) (md : List (FsPath × MarkdownFile)) (sk : List String)
    (h : collect_md_files ctx directory max_files = .ok (md, sk)) :
    (∀ N, max_files = some N → 0 < N → md.length ≤ N) ∧
    (max_files = none → List.Perm md (eligList ctx directory.1 directory.2)) := by
  constructor
  · intro N hm hN
    subst hm
    unfold collect_md_files at h
    cases hc : collectLoop ctx (some N) [directory] [] [] with
    | error q => rw [hc] at h; simp at h
    | ok r =>
      obtain ⟨md0, sk0⟩ := r
      rw [hc] at h
      simp at h
      have hb := collectLoop_bound ctx N hN [directory] [] [] md0 sk0 (by simp) hc
      rw [← h.1, sortByPath_length]
      exact hb
  · intro hm
    subst hm
    exact collect_unbounded_perm ctx directory none (fun _ => rfl) md sk h

/-- Witness for C2 at concrete inputs: with `max_files = 1` the sample run
returns one post, and with `max_files = None` it returns a permutation of
the eligible posts of the sample tree. -/
theorem collect_bound_and_exhaustive_witness :
    ([(["markdown", "a.md"], mfAlpha)] : List (FsPath × MarkdownFile)).length ≤ 1 ∧
    List.Perm mdSampleOut (eligList ctxSample dirSample.1 dirSample.2) :=
  ⟨(collect_bound_and_exhaustive ctxSample dirSample (some 1) _ _
      collectSampleOne_eval).1 1 rfl (by decide),
   (collect_bound_and_exhaustive ctxSample dirSample none _ _
      collectSample_eval).2 rfl⟩

/-- Counterexample to claim C3: a file whose headers parse but whose
rendering fails still counts as a successful load and consumes the single
`max_files` slot, because the renderer runs only when the feed item is
appended, after collection. On this tree `g.md` (render-failing) fills the
only slot, the healthy `h.md` is never loaded, and the run ends with a feed
holding zero items. -/
theorem render_failure_consumes_slot :
    collect_md_files ctxSample dirRender (some 1) =
      .ok ([(["posts", "g.md"], mfGamma)], []) ∧
    renderFailGamma mfGamma.lines = .error "renderer blew up" ∧
    rssMain ctxSample renderFailGamma dirRender "t" "d" "u" (some 1) =
      .ok (some (rssElementTreeInit ctxSample "t" "d" "u" none), [],
        ["Skipped posts/g.md: Could not convert to Markdown renderer blew up"]) := by
  refine ⟨collectRender_eval, by rfl, ?_⟩
  unfold rssMain
  rw [collectRender_eval]
  simp [mainItems, append_item, markdownFileContent, renderFailGamma, mfGamma, pathStr]
  rfl

/-- Claim C3 (amended): when the external renderer fails on a collected
post, the `main` item loop records a skip line carrying the renderer's
diagnostic, leaves the feed tree unchanged and omits the file from the
included list — but this happens at feed-build time, after the post has
already been counted by the collector. -/
theorem render_failure_skipped_at_build (ctx : Ctx)
    (render : List String → Except String String) (p : FsPath) (mf : MarkdownFile)
    (rest : List (FsPath × MarkdownFile)) (tree : RssElementTree) (inc : List FsPath)
    (errs : List String) (e : String) (h : render mf.lines = .error e) :
    mainItems ctx render ((p, mf) :: rest) tree inc errs =
      mainItems ctx render rest tree inc
        (errs ++ ["Skipped " ++ pathStr p ++ ": " ++ ("Could not convert to Markdown " ++ e)]) := by
  simp [mainItems, append_item, markdownFileContent, h]

/-- Witness for the amended C3 at a concrete input. -/
theorem render_failure_skipped_at_build_witness :
    mainItems ctxSample renderFailGamma [(["posts", "g.md"], mfGamma)]
        (rssElementTreeInit ctxSample "t" "d" "u" none) [] [] =
      mainItems ctxSample renderFailGamma []
        (rssElementTreeInit ctxSample "t" "d" "u" none) []
        (([] : List String) ++
          ["Skipped " ++ pathStr ["posts", "g.md"] ++ ": " ++
            ("Could not convert to Markdown " ++ "renderer blew up")]) :=
  render_failure_skipped_at_build ctxSample renderFailGamma ["posts", "g.md"] mfGamma
    [] (rssElementTreeInit ctxSample "t" "d" "u" none) [] [] "renderer blew up" (by rfl)

/-- The directory whose single file raises `OSError` when opened. -/
def dirOpenFail : FsPath × List FSEntry := (["root"], [.file "locked.md" none])

/-- Counterexample to claim C4: an I/O error opening a file is not
recovered into a SkipReason — only `InvalidMarkdownFile` is caught — so
the walk aborts with the error instead of returning a result. -/
theorem open_error_aborts_walk :
    collect_md_files ctxSample dirOpenFail none = .error ["root", "locked.md"] := by
  simp [collect_md_files, collectLoop, scanEntries, reachedTarget, dirOpenFail]

/-- Claim C4 (amended): a file whose content fails to parse is recovered
into a skip line and the walk continues with the remaining entries, while
an I/O error opening a file — like a directory-level I/O error — is not
caught and aborts the walk. -/
theorem parse_errors_recovered_open_errors_fatal (ctx : Ctx) (max_files : Option Nat)
    (parent : FsPath) (name : String) (c : List String) (rest : List FSEntry)
    (md : List (FsPath × MarkdownFile)) (sk : List String)
    (stack : List (FsPath × List FSEntry)) (msg : String)
    (hinit : markdownFileInit ctx c = .error msg)
    (hr : reachedTarget max_files md.length = false) :
    scanEntries ctx max_files parent (.file name (some c) :: rest) md sk stack =
      scanEntries ctx max_files parent rest md
        (sk ++ ["Skipped " ++ pathStr (parent ++ [name]) ++ ": " ++ msg]) stack ∧
    scanEntries ctx max_files parent (.file name none :: rest) md sk stack =
      .error (parent ++ [name]) := by
  constructor
  · simp [scanEntries, hinit, hr]
  · simp [scanEntries]

/-- Witness for the amended C4 at a concrete input: a file whose first
line is not a title header. -/
theorem parse_errors_recovered_open_errors_fatal_witness :
    scanEntries ctxSample none ["r"] [.file "bad.md" (some ["oops"])] [] [] [] =
      scanEntries ctxSample none ["r"] [] []
        (([] : List String) ++
          ["Skipped " ++ pathStr (["r"] ++ ["bad.md"]) ++ ": " ++ "Missing title header"]) [] ∧
    scanEntries ctxSample none ["r"] [.file "bad.md" none] [] [] [] =
      .error (["r"] ++ ["bad.md"]) :=
  parse_errors_recovered_open_errors_fatal ctxSample none ["r"] "bad.md" ["oops"] []
    [] [] [] "Missing title header" (by rfl) (by rfl)

/-- Content whose title header is just the marker: the parsed title is
empty. -/
def emptyTitleLines : List String := ["# ", "", "## 2023-01-01"]

/-- The post parsed from the empty-title file. -/
def mfEmptyTitle : MarkdownFile :=
  { lines := emptyTitleLines, title := "", pub_date := ⟨2023, 1, 1, 0, 0, 0, 0, some 0⟩ }

/-- Counterexample to claim C5: a file whose first line is `"# "` parses
successfully into a post whose title is the empty string — the parser only
checks the marker, never that the remainder is non-empty. -/
theorem parse_accepts_empty_title :
    markdownFileInit ctxSample emptyTitleLines = .ok mfEmptyTitle ∧
    mfEmptyTitle.title = "" :=
  ⟨by rfl, by rfl⟩

/-- Claim C5 (amended): whenever parsing succeeds, the post's title is line
one stripped of leading `#` characters and surrounding whitespace — line
one necessarily starts with the `"# "` marker, but the remainder may be
empty; when parsing does not succeed, construction fails with an
`InvalidMarkdownFile` error, one of the three parser messages. -/
theorem parse_title_is_stripped_first_line (ctx : Ctx) (content : List String) :
    (∀ mf, markdownFileInit ctx content = .ok mf →
      mf.title = pyStrip (pyLstripHash (lineAt content 0)) ∧
      pyStartsWith (lineAt content 0) "# " = true) ∧
    (∀ msg, markdownFileInit ctx content = .error msg →
      msg = "Missing title header" ∨ msg = "Missing date header" ∨
      msg = "Date header is not a valid ISO date") := by
  constructor
  · intro mf h
    simp only [markdownFileInit] at h
    split at h
    · simp at h
    · split at h
      · simp at h
      · rename_i h1 h2
        cases hp : ctx.isoParse (pyStrip (pyLstripHash (lineAt content 2))) with
        | none => rw [hp] at h; simp at h
        | some d =>
          rw [hp] at h
          simp at h
          constructor
          · rw [← h]
          · simpa using h1
  · intro msg h
    simp only [markdownFileInit] at h
    split at h
    · simp at h
      subst h
      simp
    · split at h
      · simp at h
        subst h
        simp
      · cases hp : ctx.isoParse (pyStrip (pyLstripHash (lineAt content 2))) with
        | none =>
          rw [hp] at h
          simp at h
          subst h
          simp
        | some d =>
          rw [hp] at h
          simp at h

/-- Witness for the amended C5 at concrete inputs: the success side on the
sample post `alphaLines`, the failure side on a file whose first line is
not a title header. -/
theorem parse_title_is_stripped_first_line_witness :
    (mfAlpha.title = pyStrip (pyLstripHash (lineAt alphaLines 0)) ∧
      pyStartsWith (lineAt alphaLines 0) "# " = true) ∧
    ("Missing title header" = "Missing title header" ∨
      "Missing title header" = "Missing date header" ∨
      "Missing title header" = "Date header is not a valid ISO date") :=
  ⟨(parse_title_is_stripped_first_line ctxSample alphaLines).1 mfAlpha initAlpha_eval,
   (parse_title_is_stripped_first_line ctxSample ["oops"]).2 "Missing title header" (by rfl)⟩

/-- Claim C6: whenever the collected post collection is empty, `main`
produces no feed document at all (`none`, not an empty feed) together with
a single non-empty diagnostic explaining that no eligible source files were
found. -/
theorem empty_collection_yields_no_feed (ctx : Ctx)
    (render : List String → Except String String) (directory : FsPath × List FSEntry)
    (title description url : String) (max_files : Option Nat) (sk : List String)
    (h : collect_md_files ctx directory max_files = .ok ([], sk)) :
    rssMain ctx render directory title description url max_files =
      .ok (none, [], [noFilesMessage directory.1]) ∧
    noFilesMessage directory.1 ≠ "" := by
  constructor
  · unfold rssMain
    rw [h]
    simp
  · intro hc
    have hlen := congrArg String.length hc
    rw [noFilesMessage, String.length_append, String.length_append] at hlen
    have h27 : ("No markdown files found in ").length = 27 := by rfl
    have h0 : ("" : String).length = 0 := by rfl
    omega

/-- Witness for C6 at a concrete input: an empty directory. -/
theorem empty_collection_yields_no_feed_witness :
    rssMain ctxSample renderFailGamma (["empty"], []) "t" "d" "u" none =
      .ok (none, [], [noFilesMessage ["empty"]]) ∧
    noFilesMessage ["empty"] ≠ "" :=
  empty_collection_yields_no_feed ctxSample renderFailGamma (["empty"], []) "t" "d" "u"
    none [] collectEmptyDir_eval

/-- Claim C7: the spec's schema gives the root element the attributes
`version="2.0"` and `xmlns:atom="http://www.w3.org/2005/Atom"`. The code
spells the second attribute key `xlmns:atom` — a slip, since `xlmns` is
meaningless in XML and the Atom namespace declaration is clearly intended —
so no `xmlns:atom` attribute is present on any built feed. -/
theorem rss_root_attribs_misspell_atom_namespace (ctx : Ctx)
    (title description url : String) (pub_date : Option String) :
    (rssElementTreeInit ctx title description url pub_date).rootAttribs =
      [("version", "2.0"), ("xlmns:atom", "http://www.w3.org/2005/Atom")] ∧
    ((rssElementTreeInit ctx title description url pub_date).rootAttribs.filter
        (fun kv => kv.1 == "xmlns:atom")) = [] :=
  ⟨rfl, rfl⟩

/-- Claim C8: the mapping the collector returns is ordered ascending by the
source file path — the first component of the sorted tuples — regardless of
the posts' dates and titles. -/
theorem collect_sorted_by_path (ctx : Ctx) (directory : FsPath × List FSEntry)
    (max_files : Option Nat) (md : List (FsPath × MarkdownFile)) (sk : List String)
    (h : collect_md_files ctx directory max_files = .ok (md, sk)) :
    List.Pairwise pathNondecreasing md := by
  unfold collect_md_files at h
  cases hc : collectLoop ctx max_files [directory] [] [] with
  | error q => rw [hc] at h; simp at h
  | ok r =>
    obtain ⟨md0, sk0⟩ := r
    rw [hc] at h
    simp at h
    rw [← h.1]
    exact sortByPath_pairwise md0

/-- Witness for C8 at a concrete input. -/
theorem collect_sorted_by_path_witness :
    List.Pairwise pathNondecreasing mdSampleOut :=
  collect_sorted_by_path ctxSample dirSample none mdSampleOut [] collectSample_eval

/-- Claim C9: `max_files = 0` is falsy in the `target = max_files if
max_files else math.inf` guard, so the collector treats it exactly like an
unset bound: the run coincides with the `None` run and returns every
eligible post of the tree. -/
theorem zero_max_files_unlimited (ctx : Ctx) (directory : FsPath × List FSEntry) :
    collect_md_files ctx directory (some 0) = collect_md_files ctx directory none ∧
    ∀ md sk, collect_md_files ctx directory (some 0) = .ok (md, sk) →
      List.Perm md (eligList ctx directory.1 directory.2) := by
  constructor
  · unfold collect_md_files
    rw [collectLoop_congr ctx (some 0) none (fun n => rfl)]
  · intro md sk h
    exact collect_unbounded_perm ctx directory (some 0) (fun _ => rfl) md sk h

/-- Witness for C9 at a concrete input: the sample run with
`max_files = 0` returns both posts. -/
theorem zero_max_files_unlimited_witness :
    List.Perm mdSampleOut (eligList ctxSample dirSample.1 dirSample.2) :=
  (zero_max_files_unlimited ctxSample dirSample).2 mdSampleOut []
    (((zero_max_files_unlimited ctxSample dirSample).1).trans collectSample_eval)

/-- Claim C10: when the date header's ISO text parses to a datetime
carrying an explicit UTC offset, the stored `published_at` keeps the
written wall-clock fields unchanged and replaces the offset with the fixed
local one — `date.combine(date.date(), date.time(), TZ_INFO)` drops the
parsed `tzinfo` because `datetime.time()` excludes it. -/
theorem pub_date_keeps_wall_clock_replaces_offset (ctx : Ctx) (content : List String)
    (d : PyDatetime) (w : Int) (mf : MarkdownFile)
    (hd : ctx.isoParse (pyStrip (pyLstripHash (lineAt content 2))) = some d)
    (hoff : d.offset = some w)
    (h : markdownFileInit ctx content = .ok mf) :
    mf.pub_date = { d with offset := some ctx.tzOffset } := by
  simp only [markdownFileInit] at h
  split at h
  · simp at h
  · split at h
    · simp at h
    · rw [hd] at h
      simp at h
      rw [← h]

/-- A `fromisoformat` fragment recognising one offset-carrying ISO string
(+02:00, i.e. 7200 seconds). -/
def isoParseOffset : String → Option PyDatetime := fun s =>
  if s = "2023-05-06T07:08:09+02:00" then some ⟨2023, 5, 6, 7, 8, 9, 0, some 7200⟩
  else none

/-- A host environment five hours west of UTC. -/
def ctxOffset : Ctx :=
  { isoParse := isoParseOffset
    tzOffset := -18000
    strfDate := fun _ => "formatted-date"
    nowStr := "now-date" }

/-- A post whose date header carries an explicit +02:00 offset. -/
def offsetLines : List String := ["# Title", "", "## 2023-05-06T07:08:09+02:00", "body"]

/-- The post parsed from `offsetLines` under `ctxOffset`. -/
def mfOffset : MarkdownFile :=
  { lines := offsetLines, title := "Title"
    pub_date := ⟨2023, 5, 6, 7, 8, 9, 0, some (-18000)⟩ }

/-- Witness for C10 at a concrete input: the +02:00 offset is discarded
and the local -05:00 offset attached to the same wall-clock reading. -/
theorem pub_date_keeps_wall_clock_replaces_offset_witness :
    mfOffset.pub_date =
      { PyDatetime.mk 2023 5 6 7 8 9 0 (some 7200) with offset := some ctxOffset.tzOffset } :=
  pub_date_keeps_wall_clock_replaces_offset ctxOffset offsetLines
    ⟨2023, 5, 6, 7, 8, 9, 0, some 7200⟩ 7200 mfOffset (by rfl) (by rfl) (by rfl)
